/-
Verification of the core build-executor components of the tundra build system
(build queue state machine, input-signature computation, state persistence,
shared resources, stale-output sweeping), as a shallow embedding in Lean 4.

Each C++ function that a claim depends on is translated into an executable
Lean definition; machine integers become Nat/Int, fallible operations return
Option, and the persisted/frozen binary structures become Lean structures.
Components whose sources are not part of the analysed tree (FileSign.cpp,
Hash.cpp, the HashSet container, NodeState.hpp) are modelled from the
specification, and are marked as such in their doc comments.
-/
import Mathlib

namespace Tundra

/-- Node build progress. Modelled from the spec: NodeState.hpp is not under
src/; the spec lists the progress values, in order, as Initial, Blocked,
Unblocked, CheckSignature, RunAction, UpToDate, Succeeded, Failed, Completed,
and `DriverSaveBuildState` compares them by their numeric order
(`m_Progress < BuildProgress::kUnblocked`). -/
inductive BuildProgress
  | initial
  | blocked
  | unblocked
  | checkSignature
  | runAction
  | upToDate
  | succeeded
  | failed
  | completed
deriving DecidableEq

/-- Numeric value of a `BuildProgress`, mirroring the C++ enum ordering. -/
def BuildProgress.toNat : BuildProgress → Nat
  | .initial => 0
  | .blocked => 1
  | .unblocked => 2
  | .checkSignature => 3
  | .runAction => 4
  | .upToDate => 5
  | .succeeded => 6
  | .failed => 7
  | .completed => 8

/-- `ValidationResult` from OutputValidation.hpp, in declaration order
(Pass, SwallowStdout, UnexpectedConsoleOutputFail, UnwrittenOutputFileFail). -/
inductive ValidationResult
  | pass
  | swallowStdout
  | unexpectedConsoleOutputFail
  | unwrittenOutputFileFail
deriving DecidableEq

/-- Numeric value of a `ValidationResult`, mirroring the C++ enum ordering
used by the comparison in `RunAction`. -/
def ValidationResult.toNat : ValidationResult → Nat
  | .pass => 0
  | .swallowStdout => 1
  | .unexpectedConsoleOutputFail => 2
  | .unwrittenOutputFileFail => 3

/-- `BuildResult::Enum` from BuildQueue.hpp. -/
inductive BuildResult
  | ok
  | interrupted
  | buildError
  | setupError
deriving DecidableEq

/-- The per-node flag bits of `NodeData::m_Flags` (DagData.hpp). -/
structure NodeFlags where
  overwriteOutputs : Bool
  preciousOutputs : Bool
  expensive : Bool
  allowUnexpectedOutput : Bool
  isWriteTextFileAction : Bool
  allowUnwrittenOutputFiles : Bool
  banContentDigestForInputs : Bool
deriving DecidableEq

/-- A filename together with its 32-bit path hash (`FrozenFileAndHash`). -/
structure FileAndHash where
  filename : String
  filenameHash : Nat
deriving DecidableEq

/-- A 160-bit hash digest (`HashDigest`): the input-signature type. -/
abbrev HashDigest : Type := Fin (2 ^ 160)

/-- One atomic contribution to the streaming signature hash: the events
`HashAddString`, `HashAddSeparator`, `HashAddPath`, `HashAddInteger`, plus a
whole-content digest contribution from the DigestCache. -/
inductive HashAtom
  | str (s : String)
  | sep
  | path (p : String)
  | int (v : Nat)
  | digest (d : Nat)
deriving DecidableEq

/-- Numeric encoding of one hash atom, used by the finalizer. -/
def HashAtom.encode : HashAtom → Nat
  | .str s => 5 * (String.hash s).toNat + 1
  | .sep => 2
  | .path p => 5 * (String.hash p).toNat + 3
  | .int v => 5 * v + 4
  | .digest d => 5 * d + 5

/-- Modelled from the spec: Hash.cpp is not under src/. `HashFinalize` turns
the stream of hashed atoms into a 160-bit digest; only determinism in the
stream matters for the claims, so a simple fold modulo 2 ^ 160 is used. -/
def hashFinalize (trace : List HashAtom) : HashDigest :=
  ⟨(trace.foldl (fun h a => h * 33 + HashAtom.encode a + 1) 5381) % 2 ^ 160,
   Nat.mod_lt _ (Nat.two_pow_pos 160)⟩

/-- The slice of a persisted prior-state record (`NodeStateData` in
StateData.hpp, as described by the spec data model) that the analysed
claims consult. -/
structure NodeStateData where
  buildResult : Int
  inputSignature : HashDigest
  outputFiles : List String
  auxOutputFiles : List String
  dagsSeen : List Nat
deriving DecidableEq

/-- `OutputFilesDiffer` (BuildQueue.cpp): true when the current node's
output-file list and the prior record's list differ in count, or any position
holds a different path. -/
def OutputFilesDiffer (nodeOutputFiles : List String) (prevOutputFiles : List String) : Bool :=
  nodeOutputFiles.length != prevOutputFiles.length ||
    (List.zip nodeOutputFiles prevOutputFiles).any (fun pq => pq.1 != pq.2)

/-- `OutputFilesMissing` (BuildQueue.cpp): true when some output file does not
exist on disk according to the StatCache (`statExists` abstracts
`StatCacheStat(...).Exists()`). -/
def OutputFilesMissing (statExists : String → Bool) (nodeOutputFiles : List String) : Bool :=
  nodeOutputFiles.any (fun f => !(statExists f))

/-- Which branch of the rebuild decision in `CheckInputSignature` fired; the
first five mirror the structured-log messages newNode, inputSignatureChanged,
nodeRetryBuild, the output-list log and nodeOutputsMissing. -/
inductive RebuildCause
  | newNode
  | inputSignatureChanged
  | retryBuild
  | outputFilesDiffer
  | outputFilesMissing
  | upToDate
deriving DecidableEq

/-- The rebuild decision chain at the end of `CheckInputSignature`
(BuildQueue.cpp): the nested if/else over the prior record, the computed
signature, the output lists and the StatCache. -/
def CheckInputSignatureDecision (prevState : Option NodeStateData)
    (inputSignature : HashDigest) (nodeOutputFiles : List String)
    (statExists : String → Bool) : BuildProgress × RebuildCause :=
  match prevState with
  | none => (BuildProgress.runAction, RebuildCause.newNode)
  | some prev =>
    if prev.inputSignature ≠ inputSignature then
      (BuildProgress.runAction, RebuildCause.inputSignatureChanged)
    else if prev.buildResult ≠ 0 then
      (BuildProgress.runAction, RebuildCause.retryBuild)
    else if OutputFilesDiffer nodeOutputFiles prev.outputFiles then
      (BuildProgress.runAction, RebuildCause.outputFilesDiffer)
    else if OutputFilesMissing statExists nodeOutputFiles then
      (BuildProgress.runAction, RebuildCause.outputFilesMissing)
    else
      (BuildProgress.upToDate, RebuildCause.upToDate)

/-- `node_was_used_by_this_dag_previously` (Driver.cpp): whether the record's
set of previously-seen DAG identifiers contains the current one. -/
def node_was_used_by_this_dag_previously (dagsSeen : List Nat)
    (currentDagIdentifier : Nat) : Bool :=
  dagsSeen.contains currentDagIdentifier

/-- The `save_old` branch of `DriverSaveBuildState` (Driver.cpp) for a record
of the prior state file that was not matched by a live node state: it is kept
verbatim when the record's GUID is still referenced by the full current DAG,
or when its dags-seen set does not contain the current DAG identifier;
otherwise it is dropped. -/
def save_old (dagNodeGuids : List Nat) (currentDagIdentifier : Nat)
    (guid : Nat) (record : NodeStateData) : Option NodeStateData :=
  if dagNodeGuids.contains guid ||
      !(node_was_used_by_this_dag_previously record.dagsSeen currentDagIdentifier) then
    some record
  else
    none

/-- The `save_new` branch of `DriverSaveBuildState` (Driver.cpp) for a live
node: when the node's progress never reached Unblocked, the prior record is
copied verbatim when one exists (and nothing is written otherwise); when it
did, a freshly built record is written. -/
def save_new (progress : BuildProgress) (freshRecord : NodeStateData)
    (oldRecord : Option NodeStateData) : Option NodeStateData :=
  if progress.toNat < BuildProgress.unblocked.toNat then oldRecord
  else some freshRecord

/-- `SharedResourceCreate` (SharedResources.cpp): runs the resource's create
action when there is one; reports success otherwise. `hasCreateAction`
abstracts `m_CreateAction != nullptr`, `createActionSucceeds` the child
process returning 0. -/
def SharedResourceCreate (hasCreateAction : Bool) (createActionSucceeds : Bool) : Bool :=
  if hasCreateAction then createActionSucceeds else true

/-- `SharedResourceAcquire` (SharedResources.cpp), sequentialized: given the
resource's refcount, returns (result, new refcount, whether the create action
path ran). The double-checked lock collapses to one check in a sequential
embedding. -/
def SharedResourceAcquire (refCount : Nat) (hasCreateAction : Bool)
    (createActionSucceeds : Bool) : Bool × Nat × Bool :=
  if refCount == 0 then
    (SharedResourceCreate hasCreateAction createActionSucceeds, refCount + 1, true)
  else
    (true, refCount, false)

/-- Outcome of the tail of `RunAction` (BuildQueue.cpp) after the action and
its output validation have produced a return code and a `ValidationResult`:
the next progress value, the output files removed by the failure cleanup, and
the StatCache dirty marks issued. -/
structure RunActionEpilogueResult where
  progress : BuildProgress
  removedOutputFiles : List String
  statCacheDirty : List String
deriving DecidableEq

/-- The tail of `RunAction` (BuildQueue.cpp): every output is marked dirty;
success requires return code 0 and validation below
UnexpectedConsoleOutputFail; on failure the outputs are deleted (and marked
dirty again) unless the node has PreciousOutputs or the failure is exactly an
UnwrittenOutputFileFail with return code 0. -/
def RunActionEpilogue (returnCode : Int) (validation : ValidationResult)
    (flags : NodeFlags) (outputFiles : List String) : RunActionEpilogueResult :=
  let dirty := outputFiles
  if returnCode == 0 &&
      validation.toNat < ValidationResult.unexpectedConsoleOutputFail.toNat then
    ⟨BuildProgress.succeeded, [], dirty⟩
  else if !flags.preciousOutputs &&
      !(returnCode == 0 && validation == ValidationResult.unwrittenOutputFileFail) then
    ⟨BuildProgress.failed, outputFiles, dirty ++ outputFiles⟩
  else
    ⟨BuildProgress.failed, [], dirty⟩

/-- The return-value computation at the end of `BuildQueueBuildNodeRange`
(BuildQueue.cpp): after the wait loop ends, a recorded signal reason yields
Interrupted, else a nonzero failed-node count yields BuildError, else Ok. -/
def BuildQueueBuildNodeRangeResult (signalReason : Option String)
    (failedNodeCount : Nat) : BuildResult :=
  if signalReason.isSome then BuildResult.interrupted
  else if failedNodeCount != 0 then BuildResult.buildError
  else BuildResult.ok

/-- The environment `CheckInputSignature` queries while hashing: the
StatCache (timestamps, `none` when the file is missing), the DigestCache
(content digests), the hash of a filename's extension, and the include
scanner (`ScanImplicitDeps`; `none` when the scan fails). -/
structure SignEnv where
  statTimestamp : String → Option Nat
  contentDigest : String → Nat
  extensionHash : String → Nat
  scanImplicitDeps : String → Option (List FileAndHash)

/-- The slice of a frozen `NodeData` (DagData.hpp) that the input-signature
computation reads. -/
structure SigNodeData where
  action : String
  preAction : Option String
  inputFiles : List FileAndHash
  hasScanner : Bool
  allowedOutputSubstrings : List String
  flags : NodeFlags

/-- Modelled from the spec: FileSign.cpp is not under src/.
`ShouldUseSHA1SignatureFor` holds when the hash of the file's extension is in
the DAG's content-digest extension list. -/
def ShouldUseSHA1SignatureFor (env : SignEnv) (filename : String)
    (shaExtensionHashes : List Nat) : Bool :=
  shaExtensionHashes.contains (env.extensionHash filename)

/-- Modelled from the spec: FileSign.cpp is not under src/.
`ComputeFileSignature` hashes the (path, timestamp-or-zero) pair when
timestamp signing is forced or the extension is not in the content-digest
list, and the content digest from the DigestCache otherwise. -/
def ComputeFileSignature (env : SignEnv) (shaExtensionHashes : List Nat)
    (filename : String) (force_use_timestamp : Bool) : List HashAtom :=
  if force_use_timestamp || !(ShouldUseSHA1SignatureFor env filename shaExtensionHashes) then
    [HashAtom.path filename, HashAtom.int ((env.statTimestamp filename).getD 0)]
  else
    [HashAtom.digest (env.contentDigest filename)]

/-- `HashSetInsert` guarded by `HashSetLookup` as in the implicit-dependency
collection of `CheckInputSignature`: insert unless an entry with the same
(path hash, path) is already present. The set is carried as the list of its
elements in first-insertion order. -/
def hashSetInsert (deps : List FileAndHash) (p : FileAndHash) : List FileAndHash :=
  if deps.any (fun q => q.filenameHash == p.filenameHash && q.filename == p.filename) then
    deps
  else
    deps ++ [p]

/-- Ordering of implicit dependencies by 32-bit path hash. -/
def fileHashLe (a b : FileAndHash) : Prop :=
  a.filenameHash ≤ b.filenameHash

instance : DecidableRel fileHashLe := fun a b => Nat.decLe a.filenameHash b.filenameHash

instance : IsTotal FileAndHash fileHashLe :=
  ⟨fun a b => Nat.le_total a.filenameHash b.filenameHash⟩

instance : IsTrans FileAndHash fileHashLe :=
  ⟨fun _ _ _ h h2 => Nat.le_trans h h2⟩

/-- Modelled from the spec: the HashSet container is not under src/.
`HashSetWalk` visits the collected implicit dependencies in the set's
deterministic iteration order, which the source describes as hash order; it
is modelled as a stable sort of the insertion-ordered elements by path hash. -/
def hashSetWalk (deps : List FileAndHash) : List FileAndHash :=
  List.insertionSort fileHashLe deps

/-- One explicit input's contribution to the implicit-dependency set: on scan
success every included file is inserted (deduplicated); a failed scan
contributes nothing. -/
def implicitScanStep (env : SignEnv) (deps : List FileAndHash)
    (input : FileAndHash) : List FileAndHash :=
  match env.scanImplicitDeps input.filename with
  | some scanOutput => scanOutput.foldl hashSetInsert deps
  | none => deps

/-- The loop over `node_data->m_InputFiles` in `CheckInputSignature`
(BuildQueue.cpp): each explicit input adds its path and its file signature to
the hash stream, and, when a scanner is configured, its scanned includes to
the implicit-dependency set. -/
def CheckInputSignatureInputsLoop (env : SignEnv) (shaExtensionHashes : List Nat)
    (hasScanner : Bool) (force_use_timestamp : Bool) :
    List FileAndHash → List HashAtom × List FileAndHash → List HashAtom × List FileAndHash
  | [], acc => acc
  | input :: rest, (trace, implicitDeps) =>
    CheckInputSignatureInputsLoop env shaExtensionHashes hasScanner force_use_timestamp rest
      (trace ++ HashAtom.path input.filename ::
         ComputeFileSignature env shaExtensionHashes input.filename force_use_timestamp,
       if hasScanner then implicitScanStep env implicitDeps input else implicitDeps)

/-- The hash stream accumulated by `CheckInputSignature` (BuildQueue.cpp):
action text with separator; pre-action text with separator when present; each
explicit input's path and file signature (while collecting implicit
dependencies); when a scanner is configured, the walked implicit-dependency
set, each entry contributing path and file signature; each allowed-output
substring; and the two flag bits. -/
def CheckInputSignatureTrace (env : SignEnv) (shaExtensionHashes : List Nat)
    (node : SigNodeData) : List HashAtom :=
  let force_use_timestamp := node.flags.banContentDigestForInputs
  let start := [HashAtom.str node.action, HashAtom.sep] ++
    (match node.preAction with
     | some pre => [HashAtom.str pre, HashAtom.sep]
     | none => [])
  let looped := CheckInputSignatureInputsLoop env shaExtensionHashes node.hasScanner
    force_use_timestamp node.inputFiles (start, [])
  let withImplicit :=
    if node.hasScanner then
      looped.1 ++ (hashSetWalk looped.2).flatMap (fun f =>
        HashAtom.path f.filename ::
          ComputeFileSignature env shaExtensionHashes f.filename force_use_timestamp)
    else
      looped.1
  withImplicit ++ node.allowedOutputSubstrings.map HashAtom.str ++
    [HashAtom.int (if node.flags.allowUnexpectedOutput then 1 else 0),
     HashAtom.int (if node.flags.allowUnwrittenOutputFiles then 1 else 0)]

/-- The node input signature: the 160-bit finalization of the hash stream. -/
def CheckInputSignatureDigest (env : SignEnv) (shaExtensionHashes : List Nat)
    (node : SigNodeData) : HashDigest :=
  hashFinalize (CheckInputSignatureTrace env shaExtensionHashes node)

/-- The deduplicated implicit-dependency set collected by scanning every
explicit input, written as a standalone fold (the spec's step 4). -/
def collectImplicitDeps (env : SignEnv) (inputFiles : List FileAndHash) : List FileAndHash :=
  inputFiles.foldl (implicitScanStep env) []

/-- The hash stream as the specification words it: the concatenation, in
order, of the action part, the pre-action part, the explicit-input
contributions in DAG order, the walked implicit-dependency set's
contributions, the allowed-output substrings, and the two flag bits. -/
def specInputSignatureTrace (env : SignEnv) (shaExtensionHashes : List Nat)
    (node : SigNodeData) : List HashAtom :=
  let force_use_timestamp := node.flags.banContentDigestForInputs
  [HashAtom.str node.action, HashAtom.sep] ++
    (match node.preAction with
     | some pre => [HashAtom.str pre, HashAtom.sep]
     | none => []) ++
    node.inputFiles.flatMap (fun f =>
      HashAtom.path f.filename ::
        ComputeFileSignature env shaExtensionHashes f.filename force_use_timestamp) ++
    (if node.hasScanner then
       (hashSetWalk (collectImplicitDeps env node.inputFiles)).flatMap (fun f =>
         HashAtom.path f.filename ::
           ComputeFileSignature env shaExtensionHashes f.filename force_use_timestamp)
     else []) ++
    node.allowedOutputSubstrings.map HashAtom.str ++
    [HashAtom.int (if node.flags.allowUnexpectedOutput then 1 else 0),
     HashAtom.int (if node.flags.allowUnwrittenOutputFiles then 1 else 0)]

/-- Insert an id into a flag set (setting a NodeState flag is idempotent). -/
def flagInsert (ids : List Nat) (id : Nat) : List Nat :=
  if ids.contains id then ids else id :: ids

/-- Remove an id from a flag set (clearing a NodeState flag). -/
def flagRemove (ids : List Nat) (id : Nat) : List Nat :=
  ids.erase id

/-- The per-node data the expensive-admission logic of `RunAction` reads:
the node's dense state index, its Expensive flag, and whether the empty-action
fast path applies (`!isWriteFileAction && action empty`). -/
structure ExpNode where
  id : Nat
  expensive : Bool
  isWriteTextFileAction : Bool
  actionEmpty : Bool
deriving DecidableEq

/-- The slice of `BuildQueue` state that the expensive-admission logic
touches: the running/maximum counters, the expensive-wait LIFO (head is the
top of `m_ExpensiveWaitList`), the queued/active flag sets, the ready ring
(front is the next dequeue), and the processed-node counter. -/
structure ExpQueueState where
  expensiveRunning : Int
  maxExpensiveCount : Int
  expensiveWaitList : List Nat
  queuedNodes : List Nat
  activeNodes : List Nat
  readyRing : List Nat
  processedNodeCount : Nat
deriving DecidableEq

/-- `ParkExpensiveNode` (BuildQueue.cpp): flag the node queued and push it on
the expensive-wait LIFO. -/
def ParkExpensiveNode (s : ExpQueueState) (id : Nat) : ExpQueueState :=
  { s with
    queuedNodes := flagInsert s.queuedNodes id,
    expensiveWaitList := id :: s.expensiveWaitList }

/-- `Enqueue` (BuildQueue.cpp), reduced to its state effect: append the node
to the ready ring and flag it queued. -/
def EnqueueNode (s : ExpQueueState) (id : Nat) : ExpQueueState :=
  { s with
    queuedNodes := flagInsert s.queuedNodes id,
    readyRing := s.readyRing ++ [id] }

/-- `UnparkExpensiveNode` (BuildQueue.cpp): when the expensive-wait LIFO is
nonempty, pop its most recent entry, flag it unqueued and inactive, enqueue
it, and signal one waiter; the second component counts the CondSignal calls. -/
def UnparkExpensiveNode (s : ExpQueueState) : ExpQueueState × Nat :=
  match s.expensiveWaitList with
  | [] => (s, 0)
  | id :: rest =>
    (EnqueueNode
      { s with
        expensiveWaitList := rest,
        queuedNodes := flagRemove s.queuedNodes id,
        activeNodes := flagRemove s.activeNodes id } id, 1)

/-- What the head of `RunAction` decided before any blocking work. -/
inductive RunActionGateResult
  | fastPathSucceeded
  | parked
  | admitted
deriving DecidableEq

/-- The head of `RunAction` (BuildQueue.cpp) up to the point where the queue
lock is dropped: the empty-action fast path, then — for Expensive nodes
outside dry-run — parking when `m_ExpensiveRunning == m_MaxExpensiveCount`
and admission (incrementing the counter) otherwise. -/
def RunActionGate (s : ExpQueueState) (n : ExpNode) (dryRun : Bool) :
    ExpQueueState × RunActionGateResult :=
  if !n.isWriteTextFileAction && n.actionEmpty then
    ({ s with processedNodeCount := s.processedNodeCount + 1 },
     RunActionGateResult.fastPathSucceeded)
  else if n.expensive && !dryRun then
    if s.expensiveRunning == s.maxExpensiveCount then
      (ParkExpensiveNode s n.id, RunActionGateResult.parked)
    else
      ({ s with expensiveRunning := s.expensiveRunning + 1 },
       RunActionGateResult.admitted)
  else
    (s, RunActionGateResult.admitted)

/-- The progress value `RunAction` returns when the gate already decided the
node's fate without executing anything: the fast path returns Succeeded and a
parked node keeps progress RunAction; an admitted node goes on to execute. -/
def gateReturnProgress : RunActionGateResult → Option BuildProgress
  | RunActionGateResult.fastPathSucceeded => some BuildProgress.succeeded
  | RunActionGateResult.parked => some BuildProgress.runAction
  | RunActionGateResult.admitted => none

/-- The `kRunAction` arm of `AdvanceNode` (BuildQueue.cpp) once `RunAction`
returned something other than `kRunAction`: an Expensive node decrements
`m_ExpensiveRunning` and unparks one waiting expensive node. The second
component counts the CondSignal calls. -/
def AdvanceNodeFinishRunAction (s : ExpQueueState) (n : ExpNode) : ExpQueueState × Nat :=
  if n.expensive then
    UnparkExpensiveNode { s with expensiveRunning := s.expensiveRunning - 1 }
  else
    (s, 0)

/-- One interleaved scheduler step of the expensive-admission logic: some
node enters `RunAction`, or some node's `RunAction` finishes. -/
inductive ExpStep : ExpQueueState → ExpQueueState → Prop
  | gate (s : ExpQueueState) (n : ExpNode) (dryRun : Bool) :
      ExpStep s (RunActionGate s n dryRun).1
  | finish (s : ExpQueueState) (n : ExpNode) :
      ExpStep s (AdvanceNodeFinishRunAction s n).1

/-- Reachability under `ExpStep`. -/
inductive ExpReach : ExpQueueState → ExpQueueState → Prop
  | refl (s : ExpQueueState) : ExpReach s s
  | tail {s t u : ExpQueueState} : ExpReach s t → ExpStep t u → ExpReach s u

/-- The expensive-admission state set up by `BuildQueueInit` (BuildQueue.cpp):
zero expensive nodes running, empty wait list, empty ring. -/
def initExpQueueState (maxExpensiveCount : Int) : ExpQueueState :=
  { expensiveRunning := 0,
    maxExpensiveCount := maxExpensiveCount,
    expensiveWaitList := [],
    queuedNodes := [],
    activeNodes := [],
    readyRing := [],
    processedNodeCount := 0 }

/-- The slice of `BuildQueue` state that the worker loop guard and dequeue
read: the cleanup flag, the failed-node count, the ready queue, and the
ContinueOnError configuration bit (never consulted by the guard). -/
structure BQState where
  mainThreadWantsToCleanUp : Bool
  failedNodeCount : Nat
  readyQueue : List Nat
  continueOnError : Bool
deriving DecidableEq

/-- `ShouldKeepBuilding` (BuildQueue.cpp): false when the main thread wants
to clean up, false when any node has failed, true otherwise. The
ContinueOnError flag is not consulted. -/
def ShouldKeepBuilding (s : BQState) : Bool :=
  if s.mainThreadWantsToCleanUp then false
  else if s.failedNodeCount > 0 then false
  else true

/-- Labels of the build-loop events relevant to dequeuing after a failure. -/
inductive BQLabel
  | dequeue (id : Nat)
  | recordFailure
  | enqueue (id : Nat)
  | requestCleanup
deriving DecidableEq

/-- One mutex-protected step of the build loop (BuildQueue.cpp): a worker may
dequeue the front node only after `ShouldKeepBuilding` held under the same
lock acquisition (`BuildLoop` + `NextNode`); `AdvanceNode`'s kFailed arm
increments the failed-node count; completions enqueue successors
(`UnblockWaiters`); `BuildQueueDestroy` sets the cleanup flag. -/
inductive BQStep : BQState → BQLabel → BQState → Prop
  | dequeue (s : BQState) (id : Nat) (rest : List Nat) :
      ShouldKeepBuilding s = true →
      s.readyQueue = id :: rest →
      BQStep s (BQLabel.dequeue id) { s with readyQueue := rest }
  | recordFailure (s : BQState) :
      BQStep s BQLabel.recordFailure { s with failedNodeCount := s.failedNodeCount + 1 }
  | enqueue (s : BQState) (id : Nat) :
      BQStep s (BQLabel.enqueue id) { s with readyQueue := s.readyQueue ++ [id] }
  | requestCleanup (s : BQState) :
      BQStep s BQLabel.requestCleanup { s with mainThreadWantsToCleanUp := true }

/-- A finite interleaving of build-loop steps, recording its labels. -/
inductive BQPath : BQState → List BQLabel → BQState → Prop
  | nil (s : BQState) : BQPath s [] s
  | cons {s t u : BQState} {l : BQLabel} {ls : List BQLabel} :
      BQStep s l t → BQPath t ls u → BQPath s (l :: ls) u

/-- A normalized path as its list of segments (`PathBuffer`); PathUtil is not
under src/, and the spec describes paths as separator-canonicalized segment
sequences. -/
abbrev SweepPath : Type := List String

/-- The length of the formatted path (`strlen` of `PathFormat`): segment
lengths plus one separator between consecutive segments. -/
def fmtLen (p : SweepPath) : Nat :=
  (p.map String.length).sum + (p.length - 1)

/-- Comparison used by the sweeper's `std::sort`: descending formatted-path
length. -/
def byLenDesc (a b : SweepPath) : Prop :=
  fmtLen b ≤ fmtLen a

instance : DecidableRel byLenDesc := fun a b => Nat.decLe (fmtLen b) (fmtLen a)

instance : IsTotal SweepPath byLenDesc :=
  ⟨fun a b => Nat.le_total (fmtLen b) (fmtLen a)⟩

instance : IsTrans SweepPath byLenDesc :=
  ⟨fun _ _ _ h h2 => Nat.le_trans h2 h⟩

/-- The chain of parent directories visited by the `PathStripLast` loop of
`check_file` (Driver.cpp), longest first, stopping before the segment count
reaches zero. -/
def parentChain (p : SweepPath) : List SweepPath :=
  (List.range (p.length - 1)).reverse.map (fun k => p.take (k + 1))

/-- Proper-ancestor-directory relation as the spec words it: a nonempty
strict prefix of the path's segments. -/
def isProperAncestorOf (q p : SweepPath) : Prop :=
  q ≠ [] ∧ q.length < p.length ∧ p.take q.length = q

instance (q p : SweepPath) : Decidable (isProperAncestorOf q p) :=
  instDecidableAnd

/-- Insertion into a path set carried as an insertion-ordered list
(a HashSet of path strings, deduplicated by hash-then-string). -/
def pathSetInsert (s : List SweepPath) (p : SweepPath) : List SweepPath :=
  if p ∈ s then s else s ++ [p]

/-- The output and aux-output path lists of one frozen DAG node, as read by
`DriverRemoveStaleOutputs`. -/
structure DagNodePaths where
  outputFiles : List SweepPath
  auxOutputFiles : List SweepPath

/-- The output and aux-output path lists and dags-seen set of one prior-state
record, as read by `DriverRemoveStaleOutputs`. -/
structure StateNodePaths where
  outputFiles : List SweepPath
  auxOutputFiles : List SweepPath
  dagsSeen : List Nat

/-- The `file_table` of `DriverRemoveStaleOutputs` (Driver.cpp): every output
and aux-output path of the current DAG, deduplicated. -/
def producedFileTable (dag : List DagNodePaths) : List SweepPath :=
  dag.foldl (fun acc n => (n.outputFiles ++ n.auxOutputFiles).foldl pathSetInsert acc) []

/-- `check_file` (Driver.cpp): a prior output path not in the produced table
is scheduled for removal together with every directory on its parent chain. -/
def checkFile (produced : List SweepPath) (nuke : List SweepPath)
    (p : SweepPath) : List SweepPath :=
  if p ∈ produced then nuke
  else (parentChain p).foldl pathSetInsert (pathSetInsert nuke p)

/-- The `nuke_table` of `DriverRemoveStaleOutputs` (Driver.cpp): walk every
prior-state record whose dags-seen set contains the current DAG identifier,
passing each of its output and aux-output paths through `check_file`. -/
def nukeTable (dag : List DagNodePaths) (state : List StateNodePaths)
    (currentDagIdentifier : Nat) : List SweepPath :=
  (state.filter (fun r => r.dagsSeen.contains currentDagIdentifier)).foldl
    (fun nuke r =>
      (r.outputFiles ++ r.auxOutputFiles).foldl (checkFile (producedFileTable dag)) nuke) []

/-- The order in which `DriverRemoveStaleOutputs` issues removals: the nuke
table sorted by descending formatted-path length (`std::sort`, modelled by a
sorted permutation). When no prior state exists the function returns before
removing anything. -/
def DriverRemoveStaleOutputs (dag : List DagNodePaths)
    (state : Option (List StateNodePaths)) (currentDagIdentifier : Nat) : List SweepPath :=
  match state with
  | none => []
  | some records =>
    List.insertionSort byLenDesc (nukeTable dag records currentDagIdentifier)

/-- All output and aux-output paths of the current DAG, as the spec's
`produced` set (a flat list; membership is what matters). -/
def producedPaths (dag : List DagNodePaths) : List SweepPath :=
  dag.flatMap (fun n => n.outputFiles ++ n.auxOutputFiles)

/-- Output and aux-output paths of prior-state records whose dags-seen set
contains the current DAG identifier: the spec's `prior_produced` set. -/
def priorProducedPaths (state : List StateNodePaths) (currentDagIdentifier : Nat) :
    List SweepPath :=
  (state.filter (fun r => r.dagsSeen.contains currentDagIdentifier)).flatMap
    (fun r => r.outputFiles ++ r.auxOutputFiles)

/-- The spec's deletion set: a prior-produced path that the current DAG no
longer produces. -/
def isStaleDeletion (dag : List DagNodePaths) (state : List StateNodePaths)
    (currentDagIdentifier : Nat) (p : SweepPath) : Prop :=
  p ∈ priorProducedPaths state currentDagIdentifier ∧ p ∉ producedPaths dag

instance (dag : List DagNodePaths) (state : List StateNodePaths)
    (currentDagIdentifier : Nat) (p : SweepPath) :
    Decidable (isStaleDeletion dag state currentDagIdentifier p) :=
  inferInstanceAs
    (Decidable (p ∈ priorProducedPaths state currentDagIdentifier ∧ p ∉ producedPaths dag))

/-- Claim C1: for a node whose dependencies all completed successfully, once
the input signature is computed, `CheckInputSignature` decides RunAction iff
no prior record exists, or the prior signature differs, or the prior build
result is nonzero, or the output list differs in count or any path, or some
output file is missing on disk; otherwise it decides UpToDate; and the five
conditions are tested in exactly this priority order (witnessed by the cause
of the decision). -/
theorem checkInputSignature_rebuild_decision (prevState : Option NodeStateData)
    (inputSignature : HashDigest) (nodeOutputFiles : List String)
    (statExists : String → Bool) :
    ((CheckInputSignatureDecision prevState inputSignature nodeOutputFiles statExists).1 =
        BuildProgress.runAction ↔
      (prevState = none ∨
       ∃ prev, prevState = some prev ∧
         (prev.inputSignature ≠ inputSignature ∨ prev.buildResult ≠ 0 ∨
          OutputFilesDiffer nodeOutputFiles prev.outputFiles = true ∨
          OutputFilesMissing statExists nodeOutputFiles = true))) ∧
    ((CheckInputSignatureDecision prevState inputSignature nodeOutputFiles statExists).1 =
        BuildProgress.upToDate ↔
      (∃ prev, prevState = some prev ∧ prev.inputSignature = inputSignature ∧
        prev.buildResult = 0 ∧
        OutputFilesDiffer nodeOutputFiles prev.outputFiles = false ∧
        OutputFilesMissing statExists nodeOutputFiles = false)) ∧
    ((CheckInputSignatureDecision prevState inputSignature nodeOutputFiles statExists).2 =
        RebuildCause.newNode ↔ prevState = none) ∧
    (∀ prev, prevState = some prev →
      ((CheckInputSignatureDecision prevState inputSignature nodeOutputFiles statExists).2 =
          RebuildCause.inputSignatureChanged ↔ prev.inputSignature ≠ inputSignature) ∧
      ((CheckInputSignatureDecision prevState inputSignature nodeOutputFiles statExists).2 =
          RebuildCause.retryBuild ↔
        (prev.inputSignature = inputSignature ∧ prev.buildResult ≠ 0)) ∧
      ((CheckInputSignatureDecision prevState inputSignature nodeOutputFiles statExists).2 =
          RebuildCause.outputFilesDiffer ↔
        (prev.inputSignature = inputSignature ∧ prev.buildResult = 0 ∧
         OutputFilesDiffer nodeOutputFiles prev.outputFiles = true)) ∧
      ((CheckInputSignatureDecision prevState inputSignature nodeOutputFiles statExists).2 =
          RebuildCause.outputFilesMissing ↔
        (prev.inputSignature = inputSignature ∧ prev.buildResult = 0 ∧
         OutputFilesDiffer nodeOutputFiles prev.outputFiles = false ∧
         OutputFilesMissing statExists nodeOutputFiles = true))) := by
  cases prevState with
  | none => simp [CheckInputSignatureDecision]
  | some prev =>
    by_cases h1 : prev.inputSignature = inputSignature <;>
      by_cases h2 : prev.buildResult = 0 <;>
        by_cases h3 : OutputFilesDiffer nodeOutputFiles prev.outputFiles = true <;>
          by_cases h4 : OutputFilesMissing statExists nodeOutputFiles = true <;>
            simp_all [CheckInputSignatureDecision]

/-- Witness for claim C1: a prior record with equal signature and a nonzero
build result is retried. -/
theorem checkInputSignature_rebuild_decision_witness :
    (CheckInputSignatureDecision (some ⟨1, hashFinalize [], ["o"], [], []⟩)
        (hashFinalize []) ["o"] (fun _ => true)).2 = RebuildCause.retryBuild :=
  (((checkInputSignature_rebuild_decision (some ⟨1, hashFinalize [], ["o"], [], []⟩)
      (hashFinalize []) ["o"] (fun _ => true)).2.2.2
    ⟨1, hashFinalize [], ["o"], [], []⟩ rfl).2.1).mpr ⟨rfl, by decide⟩

/-- Claim C3 counterexample: the claim predicts that a prior-only record
(GUID not in the DAG) may be dropped only when its dags-seen set does not
contain the current DAG identifier; but `save_old` drops the record with
dags-seen = [1] and current identifier 1. -/
theorem save_old_claim_counterexample :
    ¬ (∀ (dagNodeGuids : List Nat) (currentDagIdentifier guid : Nat)
          (record : NodeStateData),
        dagNodeGuids.contains guid = false →
        save_old dagNodeGuids currentDagIdentifier guid record = none →
        node_was_used_by_this_dag_previously record.dagsSeen currentDagIdentifier = false) := by
  intro h
  have h1 := h [] 1 0 ⟨0, hashFinalize [], [], [], [1]⟩ rfl rfl
  exact absurd h1 (by decide)

/-- Claim C3 amended: the state persistor drops a prior-state record exactly
when the current DAG no longer references its GUID AND the record's dags-seen
set DOES contain the current DAG identifier; a kept record is written
verbatim. -/
theorem save_old_drop_characterization (dagNodeGuids : List Nat)
    (currentDagIdentifier guid : Nat) (record : NodeStateData) :
    (save_old dagNodeGuids currentDagIdentifier guid record = none ↔
      (dagNodeGuids.contains guid = false ∧
       node_was_used_by_this_dag_previously record.dagsSeen currentDagIdentifier = true)) ∧
    (save_old dagNodeGuids currentDagIdentifier guid record = none ∨
     save_old dagNodeGuids currentDagIdentifier guid record = some record) := by
  unfold save_old
  by_cases h1 : dagNodeGuids.contains guid <;>
    by_cases h2 :
        node_was_used_by_this_dag_previously record.dagsSeen currentDagIdentifier <;>
      simp [h1, h2] <;> exact (Decidable.em _).symm

/-- Claim C4 counterexample: the claim predicts that a failed create action
leaves the refcount unchanged and that `acquire` increments an already
positive refcount; but `SharedResourceAcquire` increments the refcount to 1
even when creation fails, and leaves a positive refcount unchanged. -/
theorem sharedResourceAcquire_claim_counterexample :
    ¬ (∀ (hasCreateAction createActionSucceeds : Bool) (n : Nat),
        ((SharedResourceAcquire 0 hasCreateAction createActionSucceeds).1 = false →
          (SharedResourceAcquire 0 hasCreateAction createActionSucceeds).2.1 = 0) ∧
        (SharedResourceAcquire (n + 1) hasCreateAction createActionSucceeds).2.1 = n + 2) := by
  intro h
  have h1 := (h true false 0).1 (by decide)
  exact absurd h1 (by decide)

/-- Claim C4 amended: `acquire` runs the create action only when the refcount
is zero; it then increments the refcount to 1 regardless of creation success,
returning true exactly when there is no create action or it succeeded; when
the refcount is already positive it returns true without running the create
action and without changing the refcount. -/
theorem sharedResourceAcquire_amended (hasCreateAction createActionSucceeds : Bool)
    (n : Nat) :
    ((SharedResourceAcquire 0 hasCreateAction createActionSucceeds).2.2 = true ∧
     (SharedResourceAcquire 0 hasCreateAction createActionSucceeds).2.1 = 1 ∧
     ((SharedResourceAcquire 0 hasCreateAction createActionSucceeds).1 = true ↔
       (hasCreateAction = false ∨ createActionSucceeds = true))) ∧
    ((SharedResourceAcquire (n + 1) hasCreateAction createActionSucceeds).2.2 = false ∧
     (SharedResourceAcquire (n + 1) hasCreateAction createActionSucceeds).2.1 = n + 1 ∧
     (SharedResourceAcquire (n + 1) hasCreateAction createActionSucceeds).1 = true) := by
  cases hasCreateAction <;> cases createActionSucceeds <;>
    simp [SharedResourceAcquire, SharedResourceCreate]

/-- Claim C5: for a node whose action was executed, `RunAction` returns
Succeeded iff the return code is 0 and validation is strictly below
UnexpectedConsoleOutputFail; on Failed, every declared output file is deleted
and marked dirty unless the node has PreciousOutputs or the failure is
exactly an UnwrittenOutputFileFail with return code 0, in which case no
output is deleted. -/
theorem runAction_epilogue_success_and_cleanup (returnCode : Int)
    (validation : ValidationResult) (flags : NodeFlags) (outputFiles : List String) :
    ((RunActionEpilogue returnCode validation flags outputFiles).progress =
        BuildProgress.succeeded ↔
      (returnCode = 0 ∧
       validation.toNat < ValidationResult.unexpectedConsoleOutputFail.toNat)) ∧
    ((RunActionEpilogue returnCode validation flags outputFiles).progress =
        BuildProgress.succeeded ∨
     (RunActionEpilogue returnCode validation flags outputFiles).progress =
        BuildProgress.failed) ∧
    ((flags.preciousOutputs = false ∧
        ¬(returnCode = 0 ∧ validation = ValidationResult.unwrittenOutputFileFail)) →
      (RunActionEpilogue returnCode validation flags outputFiles).progress =
          BuildProgress.failed →
      ((RunActionEpilogue returnCode validation flags outputFiles).removedOutputFiles =
          outputFiles ∧
       ∀ f ∈ outputFiles,
         f ∈ (RunActionEpilogue returnCode validation flags outputFiles).statCacheDirty)) ∧
    ((flags.preciousOutputs = true ∨
        (returnCode = 0 ∧ validation = ValidationResult.unwrittenOutputFileFail)) →
      (RunActionEpilogue returnCode validation flags outputFiles).removedOutputFiles = []) := by
  by_cases hrc : returnCode = 0 <;> cases validation <;>
    by_cases hp : flags.preciousOutputs = true <;>
      simp_all [RunActionEpilogue, ValidationResult.toNat]

/-- Witness for claim C5: a failing return code on a non-precious node
deletes and dirty-marks the output file. -/
theorem runAction_epilogue_witness :
    (RunActionEpilogue 1 ValidationResult.pass
        ⟨false, false, false, false, false, false, false⟩ ["o"]).removedOutputFiles =
      ["o"] :=
  ((runAction_epilogue_success_and_cleanup 1 ValidationResult.pass
      ⟨false, false, false, false, false, false, false⟩ ["o"]).2.2.1
    ⟨rfl, by decide⟩ (by decide)).1

/-- Claim C7: after the wait loop, `BuildQueueBuildNodeRange` returns exactly
one of Ok, Interrupted, BuildError: Interrupted whenever a signal reason was
recorded (taking priority over failures), else BuildError when the
failed-node count is nonzero, else Ok. -/
theorem buildNodeRange_result_classification (signalReason : Option String)
    (failedNodeCount : Nat) :
    (BuildQueueBuildNodeRangeResult signalReason failedNodeCount =
        BuildResult.interrupted ∨
     BuildQueueBuildNodeRangeResult signalReason failedNodeCount =
        BuildResult.buildError ∨
     BuildQueueBuildNodeRangeResult signalReason failedNodeCount = BuildResult.ok) ∧
    (BuildQueueBuildNodeRangeResult signalReason failedNodeCount =
        BuildResult.interrupted ↔ signalReason.isSome = true) ∧
    (BuildQueueBuildNodeRangeResult signalReason failedNodeCount =
        BuildResult.buildError ↔ (signalReason = none ∧ failedNodeCount ≠ 0)) ∧
    (BuildQueueBuildNodeRangeResult signalReason failedNodeCount = BuildResult.ok ↔
      (signalReason = none ∧ failedNodeCount = 0)) := by
  cases signalReason <;> by_cases h : failedNodeCount = 0 <;>
    simp_all [BuildQueueBuildNodeRangeResult]

/-- Claim C10: a live node whose progress never reached Unblocked and that
has no prior-state record is omitted entirely from the persisted state; when
a prior record exists it is copied verbatim; and the progress values below
Unblocked are exactly Initial and Blocked. -/
theorem save_new_omits_unreached_nodes (freshRecord oldRecord : NodeStateData)
    (progress : BuildProgress) :
    ((progress = BuildProgress.initial ∨ progress = BuildProgress.blocked) →
      save_new progress freshRecord none = none) ∧
    ((progress = BuildProgress.initial ∨ progress = BuildProgress.blocked) →
      save_new progress freshRecord (some oldRecord) = some oldRecord) ∧
    (progress.toNat < BuildProgress.unblocked.toNat ↔
      (progress = BuildProgress.initial ∨ progress = BuildProgress.blocked)) := by
  cases progress <;> simp [save_new, BuildProgress.toNat]

/-- Witness for claim C10: an Initial-progress node with no prior record is
not written. -/
theorem save_new_omits_unreached_nodes_witness :
    save_new BuildProgress.initial ⟨0, hashFinalize [], [], [], []⟩ none = none :=
  (save_new_omits_unreached_nodes ⟨0, hashFinalize [], [], [], []⟩
      ⟨0, hashFinalize [], [], [], []⟩ BuildProgress.initial).1 (Or.inl rfl)

/-- The input-file loop of `CheckInputSignature` is the concatenation of the
explicit-input hash contributions alongside an independent fold building the
implicit-dependency set. -/
theorem CheckInputSignatureInputsLoop_eq (env : SignEnv)
    (shaExtensionHashes : List Nat) (hasScanner force_use_timestamp : Bool)
    (inputs : List FileAndHash) (trace : List HashAtom) (deps : List FileAndHash) :
    CheckInputSignatureInputsLoop env shaExtensionHashes hasScanner
        force_use_timestamp inputs (trace, deps) =
      (trace ++ inputs.flatMap (fun f =>
         HashAtom.path f.filename ::
           ComputeFileSignature env shaExtensionHashes f.filename force_use_timestamp),
       inputs.foldl
         (fun d i => if hasScanner then implicitScanStep env d i else d) deps) := by
  induction inputs generalizing trace deps with
  | nil => simp [CheckInputSignatureInputsLoop]
  | cons i rest ih =>
    simp [CheckInputSignatureInputsLoop, ih, List.append_assoc]

/-- Claim C2: the computed 160-bit input signature is the finalization of a
hash stream that is exactly, in order: the action text with separator; the
pre-action text with separator when present; each explicit input in DAG order
contributing its path then its file signature; the deduplicated implicit
inputs collected by the scanner over all explicit inputs, walked in the set's
deterministic iteration order, each contributing path then file signature;
each allowed-output substring; and the AllowUnexpectedOutput and
AllowUnwrittenOutputFiles flag bits — hence a deterministic function of
exactly these components. -/
theorem checkInputSignature_trace_composition (env : SignEnv)
    (shaExtensionHashes : List Nat) (node : SigNodeData) :
    CheckInputSignatureTrace env shaExtensionHashes node =
      specInputSignatureTrace env shaExtensionHashes node ∧
    CheckInputSignatureDigest env shaExtensionHashes node =
      hashFinalize (specInputSignatureTrace env shaExtensionHashes node) := by
  have key : CheckInputSignatureTrace env shaExtensionHashes node =
      specInputSignatureTrace env shaExtensionHashes node := by
    unfold CheckInputSignatureTrace specInputSignatureTrace collectImplicitDeps
    simp only [CheckInputSignatureInputsLoop_eq]
    cases hs : node.hasScanner <;> simp [List.append_assoc]
  exact ⟨key, by rw [CheckInputSignatureDigest, key]⟩

/-- Every expensive-admission step preserves the bound
`expensiveRunning ≤ maxExpensiveCount`. -/
theorem expStep_running_le {s t : ExpQueueState} (h : ExpStep s t)
    (hinv : s.expensiveRunning ≤ s.maxExpensiveCount) :
    t.expensiveRunning ≤ t.maxExpensiveCount := by
  cases h with
  | gate n dryRun =>
    unfold RunActionGate ParkExpensiveNode
    split_ifs with h1 h2 h3
    · exact hinv
    · exact hinv
    · have hne : s.expensiveRunning ≠ s.maxExpensiveCount := by
        simpa using h3
      show s.expensiveRunning + 1 ≤ s.maxExpensiveCount
      omega
    · exact hinv
  | finish n =>
    by_cases hexp : n.expensive = true
    · rcases hl : s.expensiveWaitList with _ | ⟨w, rest⟩ <;>
        simp [AdvanceNodeFinishRunAction, hexp, UnparkExpensiveNode, EnqueueNode, hl] <;>
        omega
    · simpa [AdvanceNodeFinishRunAction, hexp] using hinv

/-- Claim C6 counterexample: the claim predicts that every Expensive node
entering RunAction at the expensive capacity is pushed onto the wait LIFO;
but an Expensive node with an empty action takes the fast path of `RunAction`
before the admission check and is never parked. -/
theorem expensive_admission_claim_counterexample :
    ¬ (∀ (s : ExpQueueState) (n : ExpNode),
        n.expensive = true →
        s.expensiveRunning = s.maxExpensiveCount →
        (RunActionGate s n false).2 = RunActionGateResult.parked ∧
        (RunActionGate s n false).1.expensiveWaitList = n.id :: s.expensiveWaitList) := by
  intro h
  have h1 := h ⟨1, 1, [], [], [], [], 0⟩ ⟨7, true, false, true⟩ rfl rfl
  exact absurd h1.1 (by decide)

/-- Claim C6 amended: at every state reachable from the initial queue state,
`expensiveRunning ≤ maxExpensiveCount`; an Expensive node with a non-empty
action (or a write-text-file action) that enters RunAction outside dry-run
while `expensiveRunning = maxExpensiveCount` is pushed onto the
expensive-wait LIFO, marked queued, and keeps progress RunAction without
executing; and when an expensive node finishes its action the most recently
parked node (if any) is popped, marked unqueued and inactive, re-enqueued,
and exactly one waiter is signalled. -/
theorem expensive_admission_amended :
    (∀ (mx : Int) (s : ExpQueueState), 0 < mx →
       ExpReach (initExpQueueState mx) s →
       s.expensiveRunning ≤ s.maxExpensiveCount) ∧
    (∀ (s : ExpQueueState) (n : ExpNode),
       n.expensive = true →
       (n.isWriteTextFileAction = true ∨ n.actionEmpty = false) →
       s.expensiveRunning = s.maxExpensiveCount →
       (RunActionGate s n false).2 = RunActionGateResult.parked ∧
       (RunActionGate s n false).1.expensiveWaitList = n.id :: s.expensiveWaitList ∧
       (RunActionGate s n false).1.queuedNodes = flagInsert s.queuedNodes n.id ∧
       (RunActionGate s n false).1.expensiveRunning = s.expensiveRunning ∧
       gateReturnProgress (RunActionGate s n false).2 = some BuildProgress.runAction) ∧
    (∀ (s : ExpQueueState) (n : ExpNode) (w : Nat) (rest : List Nat),
       n.expensive = true →
       s.expensiveWaitList = w :: rest →
       (AdvanceNodeFinishRunAction s n).1.expensiveWaitList = rest ∧
       (AdvanceNodeFinishRunAction s n).1.readyRing = s.readyRing ++ [w] ∧
       (AdvanceNodeFinishRunAction s n).1.activeNodes = flagRemove s.activeNodes w ∧
       (AdvanceNodeFinishRunAction s n).1.queuedNodes =
         flagInsert (flagRemove s.queuedNodes w) w ∧
       (AdvanceNodeFinishRunAction s n).1.expensiveRunning = s.expensiveRunning - 1 ∧
       (AdvanceNodeFinishRunAction s n).2 = 1) ∧
    (∀ (s : ExpQueueState) (n : ExpNode),
       n.expensive = true →
       s.expensiveWaitList = [] →
       (AdvanceNodeFinishRunAction s n).1.expensiveWaitList = [] ∧
       (AdvanceNodeFinishRunAction s n).2 = 0) := by
  refine ⟨?_, ?_, ?_, ?_⟩
  · intro mx s hmx hreach
    induction hreach with
    | refl => simpa [initExpQueueState] using le_of_lt hmx
    | tail hreach hstep ih => exact expStep_running_le hstep ih
  · intro s n hexp hnonempty hfull
    have hfast : (!n.isWriteTextFileAction && n.actionEmpty) = false := by
      rcases hnonempty with h | h <;> simp [h]
    simp [RunActionGate, hfast, hexp, hfull, ParkExpensiveNode, gateReturnProgress]
  · intro s n w rest hexp hw
    simp [AdvanceNodeFinishRunAction, hexp, UnparkExpensiveNode, hw, EnqueueNode]
  · intro s n hexp hw
    simp [AdvanceNodeFinishRunAction, hexp, UnparkExpensiveNode, hw]

/-- Witness for claim C6 (amended): the bound at the initial state, a parked
expensive node at capacity, and a finish that unparks exactly one node. -/
theorem expensive_admission_amended_witness :
    (initExpQueueState 1).expensiveRunning ≤ (initExpQueueState 1).maxExpensiveCount ∧
    (RunActionGate ⟨1, 1, [], [], [], [], 0⟩ ⟨7, true, false, false⟩ false).2 =
      RunActionGateResult.parked ∧
    (AdvanceNodeFinishRunAction ⟨1, 1, [5], [5], [], [], 0⟩ ⟨9, true, false, false⟩).2 = 1 :=
  ⟨expensive_admission_amended.1 1 (initExpQueueState 1) (by decide) (ExpReach.refl _),
   (expensive_admission_amended.2.1 ⟨1, 1, [], [], [], [], 0⟩ ⟨7, true, false, false⟩
      rfl (Or.inr rfl) rfl).1,
   (expensive_admission_amended.2.2.1 ⟨1, 1, [5], [5], [], [], 0⟩ ⟨9, true, false, false⟩
      5 [] rfl rfl).2.2.2.2.2⟩

/-- The failed-node count never decreases along a build-loop step. -/
theorem bqStep_failed_mono {s : BQState} {l : BQLabel} {t : BQState}
    (h : BQStep s l t) : s.failedNodeCount ≤ t.failedNodeCount := by
  cases h <;> simp

/-- With a positive failed-node count, `ShouldKeepBuilding` is false. -/
theorem shouldKeepBuilding_false_of_failed (s : BQState)
    (h : 0 < s.failedNodeCount) : ShouldKeepBuilding s = false := by
  unfold ShouldKeepBuilding
  by_cases hm : s.mainThreadWantsToCleanUp <;> simp [hm, h]

/-- Claim C9: the loop guard rejects any state with a failed node, and along
every interleaving of lock-protected build-loop steps that starts with a
positive failed-node count, no dequeue ever occurs — regardless of the
ContinueOnError flag, which the guard never reads. -/
theorem buildLoop_no_dequeue_after_failure :
    (∀ s : BQState, 0 < s.failedNodeCount → ShouldKeepBuilding s = false) ∧
    (∀ (s : BQState) (ls : List BQLabel) (t : BQState),
       BQPath s ls t → 0 < s.failedNodeCount →
       ∀ id, BQLabel.dequeue id ∉ ls) := by
  refine ⟨shouldKeepBuilding_false_of_failed, ?_⟩
  intro s ls t hpath
  induction hpath with
  | nil s => intro _ id; simp
  | cons hstep hrest ih =>
    intro hfail id
    simp only [List.mem_cons, not_or]
    refine ⟨?_, ih (lt_of_lt_of_le hfail (bqStep_failed_mono hstep)) id⟩
    intro heq
    subst heq
    cases hstep with
    | dequeue a rest hkeep hqueue =>
      simp [shouldKeepBuilding_false_of_failed _ hfail] at hkeep

/-- Witness for claim C9: after a failure is recorded, a one-step path
contains no dequeue. -/
theorem buildLoop_no_dequeue_after_failure_witness :
    BQLabel.dequeue 0 ∉ ([BQLabel.recordFailure] : List BQLabel) :=
  buildLoop_no_dequeue_after_failure.2 ⟨false, 1, [0], false⟩ [BQLabel.recordFailure]
    ⟨false, 2, [0], false⟩
    (BQPath.cons (BQStep.recordFailure ⟨false, 1, [0], false⟩) (BQPath.nil _))
    (by decide) 0

/-- Membership in a path set after one insertion. -/
theorem mem_pathSetInsert {s : List SweepPath} {p x : SweepPath} :
    x ∈ pathSetInsert s p ↔ x ∈ s ∨ x = p := by
  unfold pathSetInsert
  split_ifs with h
  · constructor
    · exact Or.inl
    · rintro (hx | rfl)
      · exact hx
      · exact h
  · simp

/-- Membership in a path set after folding insertions over a list. -/
theorem mem_foldl_pathSetInsert {l : List SweepPath} {acc : List SweepPath}
    {x : SweepPath} :
    x ∈ l.foldl pathSetInsert acc ↔ x ∈ acc ∨ x ∈ l := by
  induction l generalizing acc with
  | nil => simp
  | cons p rest ih =>
    simp only [List.foldl_cons, ih, mem_pathSetInsert, List.mem_cons]
    tauto

/-- The produced-file table contains exactly the output and aux-output paths
of the current DAG. -/
theorem mem_producedFileTable {dag : List DagNodePaths} {x : SweepPath} :
    x ∈ producedFileTable dag ↔ x ∈ producedPaths dag := by
  suffices h : ∀ (nodes : List DagNodePaths) (acc : List SweepPath),
      x ∈ nodes.foldl
          (fun acc n => (n.outputFiles ++ n.auxOutputFiles).foldl pathSetInsert acc) acc ↔
        x ∈ acc ∨ ∃ n ∈ nodes, x ∈ n.outputFiles ++ n.auxOutputFiles by
    rw [producedFileTable, h, producedPaths, List.mem_flatMap]
    simp
  intro nodes
  induction nodes with
  | nil => simp
  | cons n rest ih =>
    intro acc
    simp only [List.foldl_cons, ih, mem_foldl_pathSetInsert, List.mem_cons,
      List.mem_append]
    aesop

/-- Membership after `check_file` processes one prior output path. -/
theorem mem_checkFile {produced nuke : List SweepPath} {p x : SweepPath} :
    x ∈ checkFile produced nuke p ↔
      x ∈ nuke ∨ (p ∉ produced ∧ (x = p ∨ x ∈ parentChain p)) := by
  unfold checkFile
  split_ifs with h
  · simp [h]
  · simp only [mem_foldl_pathSetInsert, mem_pathSetInsert, h]
    tauto

/-- Membership after `check_file` processes a list of prior output paths. -/
theorem mem_foldl_checkFile {paths : List SweepPath} {produced nuke : List SweepPath}
    {x : SweepPath} :
    x ∈ paths.foldl (checkFile produced) nuke ↔
      x ∈ nuke ∨ ∃ p ∈ paths, p ∉ produced ∧ (x = p ∨ x ∈ parentChain p) := by
  induction paths generalizing nuke with
  | nil => simp
  | cons p rest ih =>
    simp only [List.foldl_cons, ih, mem_checkFile, List.mem_cons]
    aesop

/-- Membership in the nuke table: a stale deletion or a directory on the
parent chain of a stale deletion. -/
theorem mem_nukeTable {dag : List DagNodePaths} {state : List StateNodePaths}
    {currentDagIdentifier : Nat} {x : SweepPath} :
    x ∈ nukeTable dag state currentDagIdentifier ↔
      ∃ p, isStaleDeletion dag state currentDagIdentifier p ∧
        (x = p ∨ x ∈ parentChain p) := by
  unfold nukeTable isStaleDeletion priorProducedPaths
  suffices h : ∀ (records : List StateNodePaths) (acc : List SweepPath),
      x ∈ records.foldl
          (fun nuke r =>
            (r.outputFiles ++ r.auxOutputFiles).foldl
              (checkFile (producedFileTable dag)) nuke) acc ↔
        x ∈ acc ∨ ∃ r ∈ records, ∃ p ∈ r.outputFiles ++ r.auxOutputFiles,
          p ∉ producedPaths dag ∧ (x = p ∨ x ∈ parentChain p) by
    rw [h]
    simp only [List.not_mem_nil, false_or]
    constructor
    · rintro ⟨r, hr, p, hp, hnp, hx⟩
      exact ⟨p, ⟨List.mem_flatMap.mpr ⟨r, hr, hp⟩, hnp⟩, hx⟩
    · rintro ⟨p, ⟨hpp, hnp⟩, hx⟩
      obtain ⟨r, hr, hp⟩ := List.mem_flatMap.mp hpp
      exact ⟨r, hr, p, hp, hnp, hx⟩
  intro records
  induction records with
  | nil => simp
  | cons r rest ih =>
    intro acc
    simp only [List.foldl_cons, ih, mem_foldl_checkFile, mem_producedFileTable,
      List.mem_cons]
    constructor
    · rintro ((hx | hpex) | ⟨q, hq, hP⟩)
      · exact Or.inl hx
      · exact Or.inr ⟨r, Or.inl rfl, hpex⟩
      · exact Or.inr ⟨q, Or.inr hq, hP⟩
    · rintro (hx | ⟨q, hq12, hP⟩)
      · exact Or.inl (Or.inl hx)
      · rcases hq12 with rfl | hq
        · exact Or.inl (Or.inr hP)
        · exact Or.inr ⟨q, hq, hP⟩

/-- The parent chain contains exactly the proper ancestor directories. -/
theorem mem_parentChain {q p : SweepPath} :
    q ∈ parentChain p ↔ isProperAncestorOf q p := by
  unfold parentChain isProperAncestorOf
  simp only [List.mem_map, List.mem_reverse, List.mem_range]
  constructor
  · rintro ⟨k, hk, rfl⟩
    have hk1 : k + 1 < p.length := by omega
    have hlen : (p.take (k + 1)).length = k + 1 := by
      rw [List.length_take]
      omega
    refine ⟨?_, ?_, ?_⟩
    · intro hnil
      rw [hnil] at hlen
      simp at hlen
    · rw [hlen]
      omega
    · rw [hlen]
  · rintro ⟨hnil, hlen, htake⟩
    have h1 : 1 ≤ q.length := List.length_pos.mpr hnil
    refine ⟨q.length - 1, by omega, ?_⟩
    rw [show q.length - 1 + 1 = q.length by omega]
    exact htake

/-- A proper ancestor directory has a strictly shorter formatted path. -/
theorem fmtLen_lt_of_properAncestor {q p : SweepPath}
    (h : isProperAncestorOf q p) : fmtLen q < fmtLen p := by
  obtain ⟨hnil, hlen, htake⟩ := h
  have h1 : 1 ≤ q.length := List.length_pos.mpr hnil
  have hsplit : q ++ p.drop q.length = p := by
    conv_rhs => rw [← List.take_append_drop q.length p]
    rw [htake]
  have hdrop : 1 ≤ (p.drop q.length).length := by
    rw [List.length_drop]
    omega
  calc fmtLen q < fmtLen (q ++ p.drop q.length) := by
        unfold fmtLen
        rw [List.map_append, List.sum_append, List.length_append]
        omega
    _ = fmtLen p := by rw [hsplit]

/-- Claim C8: with prior state present, the sweeper issues removals for
exactly the prior-produced paths the current DAG no longer produces, together
with every proper ancestor directory of such a path; the removal sequence is
ordered by descending formatted-path length, so no ancestor directory is
removed before one of its descendants; without prior state nothing is
removed. -/
theorem stale_output_sweep_removals (dag : List DagNodePaths)
    (records : List StateNodePaths) (currentDagIdentifier : Nat) :
    (∀ x, x ∈ DriverRemoveStaleOutputs dag (some records) currentDagIdentifier ↔
       (isStaleDeletion dag records currentDagIdentifier x ∨
        ∃ p, isStaleDeletion dag records currentDagIdentifier p ∧
          isProperAncestorOf x p)) ∧
    DriverRemoveStaleOutputs dag none currentDagIdentifier = [] ∧
    List.Sorted byLenDesc
      (DriverRemoveStaleOutputs dag (some records) currentDagIdentifier) ∧
    (∀ (i j : Nat)
       (hi : i <
         (DriverRemoveStaleOutputs dag (some records) currentDagIdentifier).length)
       (hj : j <
         (DriverRemoveStaleOutputs dag (some records) currentDagIdentifier).length),
       i < j →
       ¬ isProperAncestorOf
         ((DriverRemoveStaleOutputs dag (some records) currentDagIdentifier).get
           ⟨i, hi⟩)
         ((DriverRemoveStaleOutputs dag (some records) currentDagIdentifier).get
           ⟨j, hj⟩)) := by
  have hsorted : List.Sorted byLenDesc
      (DriverRemoveStaleOutputs dag (some records) currentDagIdentifier) :=
    List.sorted_insertionSort byLenDesc _
  refine ⟨?_, rfl, hsorted, ?_⟩
  · intro x
    unfold DriverRemoveStaleOutputs
    rw [List.mem_insertionSort, mem_nukeTable]
    constructor
    · rintro ⟨p, hp, (rfl | hanc)⟩
      · exact Or.inl hp
      · exact Or.inr ⟨p, hp, mem_parentChain.mp hanc⟩
    · rintro (hx | ⟨p, hp, hanc⟩)
      · exact ⟨x, hx, Or.inl rfl⟩
      · exact ⟨p, hp, Or.inr (mem_parentChain.mpr hanc)⟩
  · intro i j hi hj hij hanc
    have hp := List.pairwise_iff_get.mp hsorted ⟨i, hi⟩ ⟨j, hj⟩ (Fin.mk_lt_mk.mpr hij)
    have hlt := fmtLen_lt_of_properAncestor hanc
    unfold byLenDesc at hp
    omega

/-- Witness for claim C8: the stale file out/y schedules its parent directory
for removal, and the directory is not removed before the file. -/
theorem stale_output_sweep_removals_witness :
    ((["out"] : SweepPath) ∈
       DriverRemoveStaleOutputs [⟨[["out", "x"]], []⟩]
         (some [⟨[["out", "y"]], [], [1]⟩]) 1) ∧
    ¬ isProperAncestorOf
        ((DriverRemoveStaleOutputs [⟨[["out", "x"]], []⟩]
            (some [⟨[["out", "y"]], [], [1]⟩]) 1).get ⟨0, by decide⟩)
        ((DriverRemoveStaleOutputs [⟨[["out", "x"]], []⟩]
            (some [⟨[["out", "y"]], [], [1]⟩]) 1).get ⟨1, by decide⟩) :=
  ⟨((stale_output_sweep_removals [⟨[["out", "x"]], []⟩] [⟨[["out", "y"]], [], [1]⟩]
        1).1 ["out"]).mpr
      (Or.inr ⟨["out", "y"], by decide, by decide⟩),
   (stale_output_sweep_removals [⟨[["out", "x"]], []⟩] [⟨[["out", "y"]], [], [1]⟩]
      1).2.2.2 0 1 (by decide) (by decide) (by decide)⟩

end Tundra
